import Mathlib

/-!
Verification of the dynamic-hedging engine (`hedging_engine.py`,
`instruments.py`) against its specification.

The engine is embedded shallowly over `ℚ`: an `Instrument` is the opaque
four-operation pricing capability (`price`, `delta`, `gamma`, `vega`), a
`Row` is one market snapshot of the scenario frame, and the simulation
state mirrors the mutable fields of `HedgingSimulation`
(`cash`, `pos_stock`, `pos_gamma_hedge`, `pos_vega_hedge`).
-/

/-- Aggregated sensitivities, the dictionary returned by
`PortfolioManager.get_greeks`. -/
@[ext]
structure Greeks where
  price : ℚ
  delta : ℚ
  gamma : ℚ
  vega : ℚ
deriving DecidableEq, Repr

/-- An instrument: pure pricing and sensitivity functions of
(spot, current_date, rate, volatility), matching the call signature
`inst.price(S, current_date, r, vol)` used by the engine. -/
structure Instrument where
  price : ℚ → Int → ℚ → ℚ → ℚ
  delta : ℚ → Int → ℚ → ℚ → ℚ
  gamma : ℚ → Int → ℚ → ℚ → ℚ
  vega : ℚ → Int → ℚ → ℚ → ℚ

/-- A portfolio position: instrument together with its signed quantity. -/
abbrev Position := Instrument × ℚ

/-- One iteration of the `get_greeks` loop: accumulate
`metric(S, date, r, vol) * qty` of one position into each field. -/
def greekStep (S vol : ℚ) (date : Int) (r : ℚ) (g : Greeks) (pos : Position) : Greeks :=
  { price := g.price + pos.1.price S date r vol * pos.2
    delta := g.delta + pos.1.delta S date r vol * pos.2
    gamma := g.gamma + pos.1.gamma S date r vol * pos.2
    vega := g.vega + pos.1.vega S date r vol * pos.2 }

/-- `PortfolioManager.get_greeks`: loop over every position, accumulating
each position's contribution, starting from the all-zero baseline
dictionary. -/
def get_greeks (positions : List Position) (S vol : ℚ) (date : Int) (r : ℚ) : Greeks :=
  positions.foldl (greekStep S vol date r) ⟨0, 0, 0, 0⟩

/-- One market snapshot of the scenario DataFrame: date index plus the
columns `spot`, `vol`, `sofr`, `credit_spread`. -/
structure Row where
  date : Int
  spot : ℚ
  vol : ℚ
  sofr : ℚ
  credit_spread : ℚ
deriving DecidableEq, Repr

/-- Placeholder row used for `iloc[0]` on the scenario list; every actual
run has a nonempty scenario. -/
def defaultRow : Row := ⟨0, 0, 0, 0, 0⟩

/-- Mutable simulation state of `HedgingSimulation`. -/
structure SimState where
  cash : ℚ
  pos_stock : ℚ
  pos_gamma_hedge : ℚ
  pos_vega_hedge : ℚ
deriving DecidableEq, Repr

/-- The numerical-stability guard `1e-9` on unit Greeks. -/
def eps : ℚ := 1 / 1000000000

/-- Day-0 gamma hedge size: `-initial_gamma / unit_gamma` when a gamma
instrument is configured and its unit gamma clears the guard, else 0. -/
def day0PosGamma (portfolio : List Position) (first : Row)
    (gInst : Option Instrument) : ℚ :=
  match gInst with
  | none => 0
  | some g =>
    let unit_gamma := g.gamma first.spot first.date first.sofr first.vol
    if eps < |unit_gamma| then
      -(get_greeks portfolio first.spot first.vol first.date first.sofr).gamma / unit_gamma
    else 0

/-- Day-0 vega hedge size: accounts for the vega added by the gamma hedge,
then sizes `-(initial_vega + added_vega) / unit_vega` under the guard. -/
def day0PosVega (portfolio : List Position) (first : Row)
    (gInst vInst : Option Instrument) : ℚ :=
  match vInst with
  | none => 0
  | some v =>
    let added_vega :=
      match gInst with
      | none => 0
      | some g =>
        day0PosGamma portfolio first gInst * g.vega first.spot first.date first.sofr first.vol
    let unit_vega := v.vega first.spot first.date first.sofr first.vol
    if eps < |unit_vega| then
      -((get_greeks portfolio first.spot first.vol first.date first.sofr).vega + added_vega)
        / unit_vega
    else 0

/-- Day-0 stock position: neutralizes the delta of the base portfolio plus
the deltas contributed by the two option hedges. -/
def day0PosStock (portfolio : List Position) (first : Row)
    (gInst vInst : Option Instrument) : ℚ :=
  let added_delta_g :=
    (match gInst with
    | none => 0
    | some g =>
      day0PosGamma portfolio first gInst * g.delta first.spot first.date first.sofr first.vol)
  let added_delta_v :=
    (match vInst with
    | none => 0
    | some v =>
      day0PosVega portfolio first gInst vInst
        * v.delta first.spot first.date first.sofr first.vol)
  let total := -((get_greeks portfolio first.spot first.vol first.date first.sofr).delta
      + added_delta_g + added_delta_v)
  total

/-- Day-0 cash: the negative of the total cost of the initial hedges. -/
def day0Cash (portfolio : List Position) (first : Row)
    (gInst vInst : Option Instrument) : ℚ :=
  let cost_gamma :=
    (match gInst with
    | none => 0
    | some g =>
      day0PosGamma portfolio first gInst * g.price first.spot first.date first.sofr first.vol)
  let cost_vega :=
    (match vInst with
    | none => 0
    | some v =>
      day0PosVega portfolio first gInst vInst
        * v.price first.spot first.date first.sofr first.vol)
  let cost_stock := day0PosStock portfolio first gInst vInst * first.spot
  let total := -(cost_gamma + cost_vega + cost_stock)
  total

/-- The simulation state produced by the Day-0 pre-hedge logic of
`HedgingSimulation.__init__`. -/
def initState (portfolio : List Position) (first : Row)
    (gInst vInst : Option Instrument) : SimState :=
  { cash := day0Cash portfolio first gInst vInst
    pos_stock := day0PosStock portfolio first gInst vInst
    pos_gamma_hedge := day0PosGamma portfolio first gInst
    pos_vega_hedge := day0PosVega portfolio first gInst vInst }

/-- Immutable engine data set up by `HedgingSimulation.__init__`: the
constructor arguments plus the transaction-cost parameters it fixes. -/
structure Engine where
  portfolio : List Position
  scenario : List Row
  gamma_inst : Option Instrument
  vega_inst : Option Instrument
  rehedge_interval : Nat
  base_vol : ℚ
  stock_spread_bps : ℚ
  option_spread_bps : ℚ

/-- The constructor arguments accepted by `HedgingSimulation.__init__`
(portfolio, scenario, the two optional hedge instruments, and the
rehedge interval). -/
structure SimConfig where
  portfolio : List Position
  market_scenario_df : List Row
  gamma_hedge_inst : Option Instrument
  vega_hedge_inst : Option Instrument
  rehedge_interval : Nat

/-- Engine construction: `base_vol` is the first snapshot's volatility and
the two base spreads are set to the constants `5.0` and `100.0`. -/
def mkEngine (c : SimConfig) : Engine :=
  { portfolio := c.portfolio
    scenario := c.market_scenario_df
    gamma_inst := c.gamma_hedge_inst
    vega_inst := c.vega_hedge_inst
    rehedge_interval := c.rehedge_interval
    base_vol := (c.market_scenario_df.headD defaultRow).vol
    stock_spread_bps := 5
    option_spread_bps := 100 }

/-- The Day-0 state of a constructed engine. -/
def engineInit (e : Engine) : SimState :=
  initState e.portfolio (e.scenario.headD defaultRow) e.gamma_inst e.vega_inst

/-- `HedgingSimulation._get_spread_cost`: liquidity-haircut transaction
cost with a volatility multiplier against the run's base volatility. -/
def get_spread_cost (stock_bps option_bps base_vol notional current_vol : ℚ)
    (is_option : Bool) : ℚ :=
  let multiplier := current_vol / base_vol
  let base := if is_option then option_bps else stock_bps
  let spread_decimal := base * multiplier / 10000
  |notional| * (spread_decimal / 2)

/-- The engine's spread-cost method, reading its own cost parameters. -/
def Engine.spreadCost (e : Engine) (notional current_vol : ℚ) (is_option : Bool) : ℚ :=
  get_spread_cost e.stock_spread_bps e.option_spread_bps e.base_vol notional current_vol
    is_option

/-- Dummy instrument; only the default for `Option.getD` in branches the
source never reaches (a hedge position is nonzero only when its instrument
exists). -/
def zeroInstrument : Instrument :=
  ⟨fun _ _ _ _ => 0, fun _ _ _ _ => 0, fun _ _ _ _ => 0, fun _ _ _ _ => 0⟩

/-- Funding accrued on the cash balance at the start of a step:
`cash * rate * (1/252)`, `rate = sofr + credit_spread` when borrowing. -/
def accrue (s : SimState) (row : Row) : ℚ :=
  let rate := if s.cash < 0 then row.sofr + row.credit_spread else row.sofr
  s.cash * rate * (1 / 252)

/-- The risk view built on a rebalancing step: base positions plus the
existing gamma- and vega-hedge positions when nonzero. -/
def hedgeView (e : Engine) (s : SimState) : List Position :=
  e.portfolio
    ++ (if s.pos_gamma_hedge ≠ 0 then [(e.gamma_inst.getD zeroInstrument, s.pos_gamma_hedge)]
        else [])
    ++ (if s.pos_vega_hedge ≠ 0 then [(e.vega_inst.getD zeroInstrument, s.pos_vega_hedge)]
        else [])

/-- Step A of the cascade: re-hedge gamma. Returns the updated risk view,
the updated state and the gamma-stage spread cost. -/
def gammaStage (e : Engine) (S : ℚ) (date : Int) (sofr vol : ℚ)
    (g : Greeks) (s : SimState) : Greeks × SimState × ℚ :=
  match e.gamma_inst with
  | none => (g, s, 0)
  | some gi =>
    let unit_gamma := gi.gamma S date sofr vol
    if eps < |unit_gamma| then
      let trade_qty := -g.gamma / unit_gamma
      let price := gi.price S date sofr vol
      let cost := e.spreadCost (trade_qty * price * 100) vol true
      let s1 : SimState :=
        { s with
          cash := s.cash - (trade_qty * price + cost)
          pos_gamma_hedge := s.pos_gamma_hedge + trade_qty }
      let g1 : Greeks :=
        { g with
          vega := g.vega + trade_qty * gi.vega S date sofr vol
          delta := g.delta + trade_qty * gi.delta S date sofr vol }
      (g1, s1, cost)
    else (g, s, 0)

/-- Step B of the cascade: re-hedge vega, propagating the delta change. -/
def vegaStage (e : Engine) (S : ℚ) (date : Int) (sofr vol : ℚ)
    (g : Greeks) (s : SimState) : Greeks × SimState × ℚ :=
  match e.vega_inst with
  | none => (g, s, 0)
  | some vi =>
    let unit_vega := vi.vega S date sofr vol
    if eps < |unit_vega| then
      let trade_qty := -g.vega / unit_vega
      let price := vi.price S date sofr vol
      let cost := e.spreadCost (trade_qty * price * 100) vol true
      let s1 : SimState :=
        { s with
          cash := s.cash - (trade_qty * price + cost)
          pos_vega_hedge := s.pos_vega_hedge + trade_qty }
      let g1 : Greeks := { g with delta := g.delta + trade_qty * vi.delta S date sofr vol }
      (g1, s1, cost)
    else (g, s, 0)

/-- Step C of the cascade: re-hedge delta by replacing the stock position
with the target `-net_delta`. -/
def deltaStage (e : Engine) (S : ℚ) (vol : ℚ)
    (g : Greeks) (s : SimState) : SimState × ℚ :=
  let target_stock := -g.delta
  let stock_trade := target_stock - s.pos_stock
  let cost := e.spreadCost (stock_trade * S) vol false
  let s1 : SimState :=
    { s with
      cash := s.cash - (stock_trade * S + cost)
      pos_stock := target_stock }
  (s1, cost)

/-- One result row of the output frame. -/
structure ResultRow where
  date : Int
  spot : ℚ
  total_pnl : ℚ
  stock_pos : ℚ
  gamma_hedge_pos : ℚ
  vega_hedge_pos : ℚ
  txn_costs : ℚ
  funding_cost : ℚ
deriving DecidableEq, Repr

/-- Mark-to-market of the base portfolio alone at a snapshot. -/
def pvBase (e : Engine) (row : Row) : ℚ :=
  (get_greeks e.portfolio row.spot row.vol row.date row.sofr).price

/-- Mark-to-market of the hedges: each option leg when configured, plus the
stock position times spot. -/
def pvHedges (e : Engine) (s : SimState) (row : Row) : ℚ :=
  (match e.gamma_inst with
   | none => 0
   | some gi => s.pos_gamma_hedge * gi.price row.spot row.date row.sofr row.vol)
    + (match e.vega_inst with
       | none => 0
       | some vi => s.pos_vega_hedge * vi.price row.spot row.date row.sofr row.vol)
    + s.pos_stock * row.spot

/-- The remainder of one loop iteration of `HedgingSimulation.run` after
funding has been applied to cash: the gated rebalancing cascade followed by
valuation and reporting. -/
def stepAfterFunding (e : Engine) (s1 : SimState) (row : Row) (n : Nat)
    (funding : ℚ) : SimState × ResultRow :=
  let rebal :=
    if n % e.rehedge_interval = 0 then
      let port_greeks := get_greeks (hedgeView e s1) row.spot row.vol row.date row.sofr
      let a := gammaStage e row.spot row.date row.sofr row.vol port_greeks s1
      let b := vegaStage e row.spot row.date row.sofr row.vol a.1 a.2.1
      let c := deltaStage e row.spot row.vol b.1 b.2.1
      (c.1, a.2.2, b.2.2, c.2)
    else (s1, 0, 0, 0)
  let s2 := rebal.1
  let total_pnl := pvBase e row + pvHedges e s2 row + s2.cash
  (s2,
    { date := row.date
      spot := row.spot
      total_pnl := total_pnl
      stock_pos := s2.pos_stock
      gamma_hedge_pos := s2.pos_gamma_hedge
      vega_hedge_pos := s2.pos_vega_hedge
      txn_costs := rebal.2.2.2 + rebal.2.1 + rebal.2.2.1
      funding_cost := funding })

/-- One full iteration of the `run` loop: funding accrual, then the gated
cascade, valuation and reporting. -/
def step (e : Engine) (s : SimState) (row : Row) (n : Nat) : SimState × ResultRow :=
  let funding := accrue s row
  stepAfterFunding e { s with cash := s.cash + funding } row n funding

/-- The simulation trace: for each scenario row, the row itself, the state
after the step, and the emitted result row. `n` is the running step counter. -/
def runTrace (e : Engine) : SimState → Nat → List Row → List (Row × SimState × ResultRow)
  | _, _, [] => []
  | s, n, row :: rest =>
    let p := step e s row n
    (row, p.1, p.2) :: runTrace e p.1 (n + 1) rest

/-- `HedgingSimulation.run`: the emitted result rows over the scenario,
starting from the Day-0 state with step counter 0. -/
def Engine.run (e : Engine) : List ResultRow :=
  (runTrace e (engineInit e) 0 e.scenario).map (fun t => t.2.2)

/-- The mathematical primitives (`np.log`, `np.exp`, `np.sqrt`,
`norm.cdf`, `norm.pdf`) that `instruments.py` consumes; the expiry-boundary
behavior is independent of them, so they are kept abstract. -/
structure MathPrims where
  log : ℚ → ℚ
  exp : ℚ → ℚ
  sqrt : ℚ → ℚ
  cdf : ℚ → ℚ
  pdf : ℚ → ℚ

/-- Call/put flag of a vanilla option. -/
inductive OptionType where
  | call : OptionType
  | put : OptionType
deriving DecidableEq, Repr

/-- A vanilla European option contract: strike and expiry date (a day
count, as `(expiry_date - current_date).days` in the source). -/
structure EuropeanOption where
  strike : ℚ
  expiry_date : Int
  option_type : OptionType
deriving Repr

/-- `EuropeanOption.get_time_to_maturity`: remaining days, clamped at 0
once expired, converted to years on ACT/365. -/
def EuropeanOption.get_time_to_maturity (o : EuropeanOption) (current_date : Int) : ℚ :=
  let days_remaining := o.expiry_date - current_date
  if days_remaining < 0 then 0
  else (days_remaining : ℚ) / 365

/-- The `1e-6` time-to-maturity cutoff used by the pricing functions. -/
def tCut : ℚ := 1 / 1000000

/-- `EuropeanOption._calculate_d1_d2`: the Black-Scholes d1/d2 helper,
returning `(0, 0)` below the time cutoff. -/
def EuropeanOption.calculate_d1_d2 (m : MathPrims) (o : EuropeanOption)
    (S T r sigma : ℚ) : ℚ × ℚ :=
  if T ≤ tCut then (0, 0)
  else
    let d1 := (m.log (S / o.strike) + (r + (1 / 2) * sigma ^ 2) * T) / (sigma * m.sqrt T)
    let d2 := d1 - sigma * m.sqrt T
    (d1, d2)

/-- `EuropeanOption.price`: Black-Scholes value, or the intrinsic value at
(or past) expiry. -/
def EuropeanOption.price (m : MathPrims) (o : EuropeanOption) (S : ℚ)
    (current_date : Int) (r sigma : ℚ) : ℚ :=
  let T := o.get_time_to_maturity current_date
  if T ≤ tCut then
    match o.option_type with
    | OptionType.call => max 0 (S - o.strike)
    | OptionType.put => max 0 (o.strike - S)
  else
    let d := o.calculate_d1_d2 m S T r sigma
    match o.option_type with
    | OptionType.call => S * m.cdf d.1 - o.strike * m.exp (-r * T) * m.cdf d.2
    | OptionType.put => o.strike * m.exp (-r * T) * m.cdf (-d.2) - S * m.cdf (-d.1)

/-- `EuropeanOption.delta`: N(d1) for calls, N(d1) - 1 for puts, with the
expiry-boundary indicator values. -/
def EuropeanOption.delta (m : MathPrims) (o : EuropeanOption) (S : ℚ)
    (current_date : Int) (r sigma : ℚ) : ℚ :=
  let T := o.get_time_to_maturity current_date
  if T < tCut then
    match o.option_type with
    | OptionType.call => if o.strike < S then 1 else 0
    | OptionType.put => if S < o.strike then -1 else 0
  else
    let d := o.calculate_d1_d2 m S T r sigma
    match o.option_type with
    | OptionType.call => m.cdf d.1
    | OptionType.put => m.cdf d.1 - 1

/-- `EuropeanOption.gamma`: set to 0 at expiry for simulation stability. -/
def EuropeanOption.gamma (m : MathPrims) (o : EuropeanOption) (S : ℚ)
    (current_date : Int) (r sigma : ℚ) : ℚ :=
  let T := o.get_time_to_maturity current_date
  if T < tCut then 0
  else
    let d := o.calculate_d1_d2 m S T r sigma
    m.pdf d.1 / (S * sigma * m.sqrt T)

/-- `EuropeanOption.vega`: raw Black-Scholes vega scaled to per 1% change,
0 at (or past) expiry. -/
def EuropeanOption.vega (m : MathPrims) (o : EuropeanOption) (S : ℚ)
    (current_date : Int) (r sigma : ℚ) : ℚ :=
  let T := o.get_time_to_maturity current_date
  if T ≤ tCut then 0
  else
    let d := o.calculate_d1_d2 m S T r sigma
    let vega := S * m.sqrt T * m.pdf d.1
    vega / 100

/-- Componentwise sum of two risk vectors. -/
def addGreeks (a b : Greeks) : Greeks :=
  ⟨a.price + b.price, a.delta + b.delta, a.gamma + b.gamma, a.vega + b.vega⟩

/-- Componentwise sum of a list of risk vectors. -/
def sumGreeks (l : List Greeks) : Greeks :=
  l.foldr addGreeks ⟨0, 0, 0, 0⟩

lemma addGreeks_zero (a : Greeks) : addGreeks a ⟨0, 0, 0, 0⟩ = a := by
  cases a
  simp [addGreeks]

lemma foldl_greekStep_shift (S vol : ℚ) (date : Int) (r : ℚ) (l : List Position)
    (init : Greeks) :
    l.foldl (greekStep S vol date r) init
      = addGreeks init (l.foldl (greekStep S vol date r) ⟨0, 0, 0, 0⟩) := by
  induction l generalizing init with
  | nil => simp [addGreeks_zero]
  | cons p l ih =>
    simp only [List.foldl_cons]
    rw [ih, ih (greekStep S vol date r ⟨0, 0, 0, 0⟩ p)]
    ext <;> simp [addGreeks, greekStep] <;> ring

lemma get_greeks_nil (S vol : ℚ) (date : Int) (r : ℚ) :
    get_greeks [] S vol date r = ⟨0, 0, 0, 0⟩ := rfl

lemma get_greeks_cons (p : Position) (l : List Position) (S vol : ℚ) (date : Int) (r : ℚ) :
    get_greeks (p :: l) S vol date r
      = addGreeks ⟨p.1.price S date r vol * p.2, p.1.delta S date r vol * p.2,
          p.1.gamma S date r vol * p.2, p.1.vega S date r vol * p.2⟩
          (get_greeks l S vol date r) := by
  simp only [get_greeks, List.foldl_cons]
  rw [foldl_greekStep_shift]
  ext <;> simp [addGreeks, greekStep]

lemma get_greeks_append (l₁ l₂ : List Position) (S vol : ℚ) (date : Int) (r : ℚ) :
    get_greeks (l₁ ++ l₂) S vol date r
      = addGreeks (get_greeks l₁ S vol date r) (get_greeks l₂ S vol date r) := by
  simp only [get_greeks, List.foldl_append]
  rw [foldl_greekStep_shift]

lemma get_greeks_eq_sum (l : List Position) (S vol : ℚ) (date : Int) (r : ℚ) :
    get_greeks l S vol date r
      = ⟨(l.map fun pos => pos.1.price S date r vol * pos.2).sum,
         (l.map fun pos => pos.1.delta S date r vol * pos.2).sum,
         (l.map fun pos => pos.1.gamma S date r vol * pos.2).sum,
         (l.map fun pos => pos.1.vega S date r vol * pos.2).sum⟩ := by
  induction l with
  | nil => rfl
  | cons p l ih =>
    rw [get_greeks_cons, ih]
    ext <;> simp [addGreeks]

lemma get_greeks_perm (l₁ l₂ : List Position) (h : l₁.Perm l₂) (S vol : ℚ) (date : Int)
    (r : ℚ) : get_greeks l₁ S vol date r = get_greeks l₂ S vol date r := by
  rw [get_greeks_eq_sum, get_greeks_eq_sum]
  ext <;> simp <;> exact ((h.map _).sum_eq)

lemma get_greeks_join (parts : List (List Position)) (S vol : ℚ) (date : Int) (r : ℚ) :
    get_greeks parts.flatten S vol date r
      = sumGreeks (parts.map fun q => get_greeks q S vol date r) := by
  induction parts with
  | nil => rfl
  | cons q qs ih =>
    simp only [List.map_cons, sumGreeks, List.foldr_cons]
    rw [show (q :: qs).flatten = q ++ qs.flatten from rfl, get_greeks_append, ih]
    rfl

/-- C9: aggregation is additive over any partition of the position list
into sublists (hence independent of position order), and the empty list
aggregates to the all-zero risk vector. -/
theorem claim_C9_greek_additivity (S vol : ℚ) (date : Int) (r : ℚ)
    (parts : List (List Position)) (l : List Position) (h : l.Perm parts.flatten) :
    get_greeks l S vol date r = sumGreeks (parts.map fun q => get_greeks q S vol date r)
    ∧ get_greeks [] S vol date r = ⟨0, 0, 0, 0⟩ := by
  refine ⟨?_, rfl⟩
  rw [get_greeks_perm l parts.flatten h, get_greeks_join]

/-- A constant-sensitivity instrument, used as concrete test input. -/
def constInst (p d g v : ℚ) : Instrument :=
  ⟨fun _ _ _ _ => p, fun _ _ _ _ => d, fun _ _ _ _ => g, fun _ _ _ _ => v⟩

/-- Concrete instantiation of C9: two positions split into two singleton
parts in swapped order. -/
theorem claim_C9_witness :
    get_greeks [(constInst 1 2 3 4, 2), (constInst 5 6 7 8, 3)] 1 1 0 1
      = sumGreeks ([[(constInst 5 6 7 8, 3)], [(constInst 1 2 3 4, 2)]].map
          fun q => get_greeks q 1 1 0 1)
    ∧ get_greeks [] 1 1 0 1 = ⟨0, 0, 0, 0⟩ :=
  claim_C9_greek_additivity 1 1 0 1 [[(constInst 5 6 7 8, 3)], [(constInst 1 2 3 4, 2)]]
    [(constInst 1 2 3 4, 2), (constInst 5 6 7 8, 3)]
    (List.Perm.swap (constInst 5 6 7 8, 3) (constInst 1 2 3 4, 2) [])

/-- C5: the spread cost of a constructed engine is
`|notional| * ((base_bps * (current_vol / base_vol)) / 10000) / 2` with
base 100 bps for options and 5 bps for stock, and `base_vol` is the first
snapshot's volatility, fixed at construction. -/
theorem claim_C5_spread_cost (c : SimConfig) (hs : c.market_scenario_df ≠ [])
    (notional current_vol : ℚ) (flag : Bool) :
    (mkEngine c).spreadCost notional current_vol flag
      = |notional| * ((if flag then (100 : ℚ) else 5)
          * (current_vol / (c.market_scenario_df.head hs).vol) / 10000) / 2
    ∧ (mkEngine c).base_vol = (c.market_scenario_df.head hs).vol := by
  obtain ⟨port, scen, gi, vi, k⟩ := c
  cases scen with
  | nil => exact absurd rfl hs
  | cons a l =>
    constructor
    · cases flag <;>
        simp [Engine.spreadCost, get_spread_cost, mkEngine, mul_div_assoc]
    · rfl

/-- Concrete instantiation of C5 at a one-row scenario. -/
theorem claim_C5_witness :
    let c : SimConfig := ⟨[], [⟨0, 1, 2, 0, 0⟩], none, none, 1⟩
    (mkEngine c).spreadCost 3 4 true
      = |(3 : ℚ)| * ((if true then (100 : ℚ) else 5) * ((4 : ℚ) / (2 : ℚ)) / 10000) / 2
    ∧ (mkEngine c).base_vol = 2 :=
  claim_C5_spread_cost ⟨[], [⟨0, 1, 2, 0, 0⟩], none, none, 1⟩ (by simp) 3 4 true

lemma mkEngine_spreadCost (c : SimConfig) (n v : ℚ) (flag : Bool) :
    (mkEngine c).spreadCost n v flag
      = |n| * ((if flag then (100 : ℚ) else 5) * (v / (mkEngine c).base_vol) / 10000 / 2) := by
  cases flag <;> simp [Engine.spreadCost, get_spread_cost, mkEngine, mul_div_assoc]

/-- C6: with positive base volatility, the spread cost is non-decreasing in
current volatility over non-negative volatilities; at a positive
volatility it vanishes exactly when the notional does; and the option cost
is at least 20 times the stock cost at equal notional and volatility. -/
theorem claim_C6_cost_properties (c : SimConfig) (notional v1 v2 vv : ℚ) (flag : Bool)
    (hb : 0 < (mkEngine c).base_vol) (h1 : 0 ≤ v1) (h12 : v1 ≤ v2) (hv : 0 < vv) :
    (mkEngine c).spreadCost notional v1 flag ≤ (mkEngine c).spreadCost notional v2 flag
    ∧ ((mkEngine c).spreadCost notional vv flag = 0 ↔ notional = 0)
    ∧ 20 * (mkEngine c).spreadCost notional vv false
        ≤ (mkEngine c).spreadCost notional vv true := by
  have hbase : (0 : ℚ) < if flag then (100 : ℚ) else 5 := by cases flag <;> norm_num
  refine ⟨?_, ?_, ?_⟩
  · rw [mkEngine_spreadCost, mkEngine_spreadCost]
    refine mul_le_mul_of_nonneg_left ?_ (abs_nonneg notional)
    refine div_le_div_of_nonneg_right ?_ (by norm_num)
    refine div_le_div_of_nonneg_right ?_ (by norm_num)
    refine mul_le_mul_of_nonneg_left ?_ hbase.le
    exact div_le_div_of_nonneg_right h12 hb.le
  · rw [mkEngine_spreadCost]
    have hq : (0 : ℚ) < vv / (mkEngine c).base_vol := div_pos hv hb
    have hfacpos : (0 : ℚ)
        < (if flag then (100 : ℚ) else 5) * (vv / (mkEngine c).base_vol) / 10000 / 2 :=
      div_pos (div_pos (mul_pos hbase hq) (by norm_num)) (by norm_num)
    constructor
    · intro h
      rcases mul_eq_zero.mp h with h0 | h0
      · exact abs_eq_zero.mp h0
      · exact absurd h0 (ne_of_gt hfacpos)
    · intro h
      simp [h]
  · have e1 : (mkEngine c).spreadCost notional vv true
        = |notional| * ((100 : ℚ) * (vv / (mkEngine c).base_vol) / 10000 / 2) := by
      rw [mkEngine_spreadCost]
      norm_num
    have e2 : (mkEngine c).spreadCost notional vv false
        = |notional| * ((5 : ℚ) * (vv / (mkEngine c).base_vol) / 10000 / 2) := by
      rw [mkEngine_spreadCost]
      norm_num
    rw [e1, e2]
    exact le_of_eq (by ring)

/-- Concrete instantiation of C6. -/
theorem claim_C6_witness :
    let c : SimConfig := ⟨[], [⟨0, 1, 2, 0, 0⟩], none, none, 1⟩
    (mkEngine c).spreadCost 3 1 true ≤ (mkEngine c).spreadCost 3 4 true
    ∧ ((mkEngine c).spreadCost 3 5 true = 0 ↔ (3 : ℚ) = 0)
    ∧ 20 * (mkEngine c).spreadCost 3 5 false ≤ (mkEngine c).spreadCost 3 5 true :=
  claim_C6_cost_properties ⟨[], [⟨0, 1, 2, 0, 0⟩], none, none, 1⟩ 3 1 4 5 true
    (by norm_num [mkEngine, defaultRow]) (by norm_num) (by norm_num) (by norm_num)

/-- C8: priced at its expiry date, an option returns exactly its intrinsic
value (`max 0 (S-K)` for a call, `max 0 (K-S)` for a put), and its gamma
and vega are exactly 0, for any spot, rate, volatility and math
primitives. -/
theorem claim_C8_expiry_boundary (m : MathPrims) (o : EuropeanOption) (S r sigma : ℚ)
    (d : Int) (h : d = o.expiry_date) :
    o.price m S d r sigma
      = (match o.option_type with
         | OptionType.call => max 0 (S - o.strike)
         | OptionType.put => max 0 (o.strike - S))
    ∧ o.gamma m S d r sigma = 0
    ∧ o.vega m S d r sigma = 0 := by
  subst h
  have hT : o.get_time_to_maturity o.expiry_date = 0 := by
    simp [EuropeanOption.get_time_to_maturity]
  refine ⟨?_, ?_, ?_⟩
  · rw [EuropeanOption.price, hT]
    norm_num [tCut]
  · rw [EuropeanOption.gamma, hT]
    norm_num [tCut]
  · rw [EuropeanOption.vega, hT]
    norm_num [tCut]

/-- Trivial math primitives for concrete evaluation; never consulted at
the expiry boundary. -/
def zeroPrims : MathPrims := ⟨fun _ => 0, fun _ => 0, fun _ => 0, fun _ => 0, fun _ => 0⟩

/-- Concrete instantiation of C8: a strike-1 call priced on its expiry
date. -/
theorem claim_C8_witness :
    EuropeanOption.price zeroPrims ⟨1, 5, OptionType.call⟩ 3 5 0 0
      = (match (⟨1, 5, OptionType.call⟩ : EuropeanOption).option_type with
         | OptionType.call => max 0 (3 - (1 : ℚ))
         | OptionType.put => max 0 ((1 : ℚ) - 3))
    ∧ EuropeanOption.gamma zeroPrims ⟨1, 5, OptionType.call⟩ 3 5 0 0 = 0
    ∧ EuropeanOption.vega zeroPrims ⟨1, 5, OptionType.call⟩ 3 5 0 0 = 0 :=
  claim_C8_expiry_boundary zeroPrims ⟨1, 5, OptionType.call⟩ 3 0 0 5 rfl

/-- C4: every step reports as `funding_cost` exactly
`cash * rate * (1/252)` on the pre-step cash, at `rate = sofr +
credit_spread` when cash is negative and `sofr` otherwise, and the step
proceeds from the state whose cash has been increased by exactly that
amount before any rebalancing. -/
theorem claim_C4_funding_accrual (e : Engine) (s : SimState) (row : Row) (n : Nat) :
    (step e s row n).2.funding_cost
      = s.cash * (if s.cash < 0 then row.sofr + row.credit_spread else row.sofr) * (1 / 252)
    ∧ step e s row n
      = stepAfterFunding e
          { s with cash := s.cash
              + s.cash * (if s.cash < 0 then row.sofr + row.credit_spread else row.sofr)
                * (1 / 252) }
          row n
          (s.cash * (if s.cash < 0 then row.sofr + row.credit_spread else row.sofr)
            * (1 / 252)) :=
  ⟨rfl, rfl⟩

/-- C3: on a step whose counter is not divisible by the rehedge interval,
the three hedge positions are unchanged, the reported transaction cost is
0, and cash changes exactly by the funding accrual, which is still
reported. -/
theorem claim_C3_skip_day (e : Engine) (s : SimState) (row : Row) (n : Nat)
    (h : n % e.rehedge_interval ≠ 0) :
    (step e s row n).1.pos_stock = s.pos_stock
    ∧ (step e s row n).1.pos_gamma_hedge = s.pos_gamma_hedge
    ∧ (step e s row n).1.pos_vega_hedge = s.pos_vega_hedge
    ∧ (step e s row n).2.txn_costs = 0
    ∧ (step e s row n).1.cash = s.cash + accrue s row
    ∧ (step e s row n).2.funding_cost = accrue s row := by
  simp [step, stepAfterFunding, h, accrue]

/-- Concrete instantiation of C3: interval 2, step counter 1. -/
theorem claim_C3_witness :
    let e : Engine := mkEngine ⟨[], [⟨0, 1, 1, 0, 0⟩], none, none, 2⟩
    let s : SimState := ⟨7, 1, 2, 3⟩
    let row : Row := ⟨1, 1, 1, 1, 1⟩
    (step e s row 1).1.pos_stock = s.pos_stock
    ∧ (step e s row 1).1.pos_gamma_hedge = s.pos_gamma_hedge
    ∧ (step e s row 1).1.pos_vega_hedge = s.pos_vega_hedge
    ∧ (step e s row 1).2.txn_costs = 0
    ∧ (step e s row 1).1.cash = s.cash + accrue s row
    ∧ (step e s row 1).2.funding_cost = accrue s row :=
  claim_C3_skip_day (mkEngine ⟨[], [⟨0, 1, 1, 0, 0⟩], none, none, 2⟩) ⟨7, 1, 2, 3⟩
    ⟨1, 1, 1, 1, 1⟩ 1 (by decide)

/-- C7 fails on the code: the constructor fixes both base spreads, so no
choice of constructor arguments yields spreads other than 5 and 100. -/
theorem claim_C7_counterexample :
    (fun c : SimConfig => (mkEngine c).stock_spread_bps) = (fun _ => 5)
    ∧ (fun c : SimConfig => (mkEngine c).option_spread_bps) = (fun _ => 100) :=
  ⟨funext fun _ => rfl, funext fun _ => rfl⟩

/-- C7 (amended): the constructor recognizes the rehedge interval and the
two optional hedge instruments; the base spreads are not configurable and
every constructed engine carries the fixed values 5 and 100 bps. -/
theorem claim_C7_fixed_spreads (c : SimConfig) :
    (mkEngine c).stock_spread_bps = 5
    ∧ (mkEngine c).option_spread_bps = 100
    ∧ (mkEngine c).rehedge_interval = c.rehedge_interval
    ∧ (mkEngine c).gamma_inst = c.gamma_hedge_inst
    ∧ (mkEngine c).vega_inst = c.vega_hedge_inst :=
  ⟨rfl, rfl, rfl, rfl, rfl⟩

lemma step_total_pnl (e : Engine) (s : SimState) (row : Row) (n : Nat) :
    (step e s row n).2.total_pnl
      = pvBase e row + pvHedges e (step e s row n).1 row + (step e s row n).1.cash := rfl

/-- C1: every result row of every run reports
`total_pnl = pv_base + pv_hedges + cash`, where `pv_base` prices the base
positions alone, `pv_hedges` prices the post-trade hedge positions (an
option leg contributing 0 when unconfigured), and `cash` is the ledger
cash after the step's funding accrual and trades; in particular the
identity holds within tolerance `1e-6`. -/
theorem claim_C1_ledger_conservation (e : Engine) (s0 : SimState) (n0 : Nat)
    (rows : List Row) (t : Row × SimState × ResultRow)
    (ht : t ∈ runTrace e s0 n0 rows) :
    t.2.2.total_pnl = pvBase e t.1 + pvHedges e t.2.1 t.1 + t.2.1.cash
    ∧ |t.2.2.total_pnl - (pvBase e t.1 + pvHedges e t.2.1 t.1 + t.2.1.cash)|
        ≤ 1 / 1000000 := by
  have key : t.2.2.total_pnl = pvBase e t.1 + pvHedges e t.2.1 t.1 + t.2.1.cash := by
    induction rows generalizing s0 n0 with
    | nil => simp [runTrace] at ht
    | cons row rest ih =>
      simp only [runTrace] at ht
      rcases List.mem_cons.mp ht with h | h
      · subst h
        simpa using step_total_pnl e s0 row n0
      · exact ih _ _ h
  refine ⟨key, ?_⟩
  rw [key, sub_self, abs_zero]
  norm_num

/-- One-row scenario used for concrete run instantiations. -/
def w1Row : Row := ⟨0, 1, 1, 0, 0⟩

/-- A trivial engine: empty portfolio, no hedge instruments, one-row
scenario, daily rehedging. -/
def w1Engine : Engine := mkEngine ⟨[], [w1Row], none, none, 1⟩

/-- The single trace element of the trivial engine's run. -/
def w1T : Row × SimState × ResultRow := (w1Row, ⟨0, 0, 0, 0⟩, ⟨0, 1, 0, 0, 0, 0, 0, 0⟩)

/-- Concrete instantiation of C1 on the trivial engine's run. -/
theorem claim_C1_witness :
    w1T.2.2.total_pnl = pvBase w1Engine w1T.1 + pvHedges w1Engine w1T.2.1 w1T.1
      + w1T.2.1.cash
    ∧ |w1T.2.2.total_pnl - (pvBase w1Engine w1T.1 + pvHedges w1Engine w1T.2.1 w1T.1
        + w1T.2.1.cash)| ≤ 1 / 1000000 :=
  claim_C1_ledger_conservation w1Engine (engineInit w1Engine) 0 [w1Row] w1T
    (by rw [show runTrace w1Engine (engineInit w1Engine) 0 [w1Row] = [w1T] by
          norm_num [runTrace, step, stepAfterFunding, accrue, hedgeView, gammaStage,
            vegaStage, deltaStage, pvBase, pvHedges, engineInit, initState, day0Cash,
            day0PosStock, day0PosGamma, day0PosVega, get_greeks, greekStep, mkEngine,
            w1Engine, w1Row, w1T, Engine.spreadCost, get_spread_cost, defaultRow]]
        exact List.mem_singleton_self w1T)

lemma day0PosGamma_some (port : List Position) (F : Row) (gi : Instrument)
    (h : eps < |gi.gamma F.spot F.date F.sofr F.vol|) :
    day0PosGamma port F (some gi)
      = -(get_greeks port F.spot F.vol F.date F.sofr).gamma
          / gi.gamma F.spot F.date F.sofr F.vol := by
  simp [day0PosGamma, h]

lemma day0PosVega_some_some (port : List Position) (F : Row) (gi vi : Instrument)
    (h : eps < |vi.vega F.spot F.date F.sofr F.vol|) :
    day0PosVega port F (some gi) (some vi)
      = -((get_greeks port F.spot F.vol F.date F.sofr).vega
            + day0PosGamma port F (some gi) * gi.vega F.spot F.date F.sofr F.vol)
          / vi.vega F.spot F.date F.sofr F.vol := by
  simp [day0PosVega, h]

lemma day0PosStock_some_some (port : List Position) (F : Row) (gi vi : Instrument) :
    day0PosStock port F (some gi) (some vi)
      = -((get_greeks port F.spot F.vol F.date F.sofr).delta
          + day0PosGamma port F (some gi) * gi.delta F.spot F.date F.sofr F.vol
          + day0PosVega port F (some gi) (some vi)
              * vi.delta F.spot F.date F.sofr F.vol) := by
  simp [day0PosStock]

lemma get_greeks_append_one (P : List Position) (i1 : Instrument) (a S vol : ℚ)
    (date : Int) (r : ℚ) :
    get_greeks (P ++ [(i1, a)]) S vol date r
      = ⟨(get_greeks P S vol date r).price + i1.price S date r vol * a,
         (get_greeks P S vol date r).delta + i1.delta S date r vol * a,
         (get_greeks P S vol date r).gamma + i1.gamma S date r vol * a,
         (get_greeks P S vol date r).vega + i1.vega S date r vol * a⟩ := by
  rw [get_greeks_append, get_greeks_cons, get_greeks_nil]
  ext <;> simp [addGreeks]

lemma get_greeks_append_two (P : List Position) (i1 i2 : Instrument) (a b S vol : ℚ)
    (date : Int) (r : ℚ) :
    get_greeks (P ++ [(i1, a), (i2, b)]) S vol date r
      = ⟨(get_greeks P S vol date r).price + i1.price S date r vol * a
            + i2.price S date r vol * b,
         (get_greeks P S vol date r).delta + i1.delta S date r vol * a
            + i2.delta S date r vol * b,
         (get_greeks P S vol date r).gamma + i1.gamma S date r vol * a
            + i2.gamma S date r vol * b,
         (get_greeks P S vol date r).vega + i1.vega S date r vol * a
            + i2.vega S date r vol * b⟩ := by
  rw [get_greeks_append, get_greeks_cons, get_greeks_cons, get_greeks_nil]
  ext <;> simp [addGreeks] <;> ring

lemma eps_pos : (0 : ℚ) < eps := by norm_num [eps]

/-- C2 (amended): at Day 0 with both hedge instruments configured and
non-degenerate, the aggregate vega of base + both hedges and the aggregate
delta of base + both hedges + stock are exactly zero, and the aggregate
gamma of base + gamma hedge alone is exactly zero; the aggregate gamma
including the vega hedge equals `vega_hedge_position` times the vega
instrument's unit gamma, which is not neutralized. -/
theorem claim_C2_day0_neutralization (e : Engine) (gi vi : Instrument) (F : Row)
    (hF : F = e.scenario.headD defaultRow)
    (hg : e.gamma_inst = some gi) (hv : e.vega_inst = some vi)
    (hug : eps < |gi.gamma F.spot F.date F.sofr F.vol|)
    (huv : eps < |vi.vega F.spot F.date F.sofr F.vol|) :
    (get_greeks (e.portfolio ++ [(gi, (engineInit e).pos_gamma_hedge),
        (vi, (engineInit e).pos_vega_hedge)]) F.spot F.vol F.date F.sofr).vega = 0
    ∧ (get_greeks (e.portfolio ++ [(gi, (engineInit e).pos_gamma_hedge),
        (vi, (engineInit e).pos_vega_hedge)]) F.spot F.vol F.date F.sofr).delta
        + (engineInit e).pos_stock = 0
    ∧ (get_greeks (e.portfolio ++ [(gi, (engineInit e).pos_gamma_hedge)])
        F.spot F.vol F.date F.sofr).gamma = 0
    ∧ (get_greeks (e.portfolio ++ [(gi, (engineInit e).pos_gamma_hedge),
        (vi, (engineInit e).pos_vega_hedge)]) F.spot F.vol F.date F.sofr).gamma
        = (engineInit e).pos_vega_hedge * vi.gamma F.spot F.date F.sofr F.vol := by
  have hI : engineInit e = initState e.portfolio F (some gi) (some vi) := by
    rw [engineInit, ← hF, hg, hv]
  have hugne : gi.gamma F.spot F.date F.sofr F.vol ≠ 0 := by
    intro h0
    rw [h0, abs_zero] at hug
    exact absurd hug (not_lt_of_le eps_pos.le)
  have huvne : vi.vega F.spot F.date F.sofr F.vol ≠ 0 := by
    intro h0
    rw [h0, abs_zero] at huv
    exact absurd huv (not_lt_of_le eps_pos.le)
  have hpg : (engineInit e).pos_gamma_hedge
      = -(get_greeks e.portfolio F.spot F.vol F.date F.sofr).gamma
          / gi.gamma F.spot F.date F.sofr F.vol := by
    rw [hI]
    exact day0PosGamma_some e.portfolio F gi hug
  have hpv : (engineInit e).pos_vega_hedge
      = -((get_greeks e.portfolio F.spot F.vol F.date F.sofr).vega
            + day0PosGamma e.portfolio F (some gi) * gi.vega F.spot F.date F.sofr F.vol)
          / vi.vega F.spot F.date F.sofr F.vol := by
    rw [hI]
    exact day0PosVega_some_some e.portfolio F gi vi huv
  have hps : (engineInit e).pos_stock
      = -((get_greeks e.portfolio F.spot F.vol F.date F.sofr).delta
          + day0PosGamma e.portfolio F (some gi) * gi.delta F.spot F.date F.sofr F.vol
          + day0PosVega e.portfolio F (some gi) (some vi)
              * vi.delta F.spot F.date F.sofr F.vol) := by
    rw [hI]
    exact day0PosStock_some_some e.portfolio F gi vi
  have hpgd : day0PosGamma e.portfolio F (some gi) = (engineInit e).pos_gamma_hedge := by
    rw [hI, initState]
  have hpvd : day0PosVega e.portfolio F (some gi) (some vi)
      = (engineInit e).pos_vega_hedge := by
    rw [hI, initState]
  refine ⟨?_, ?_, ?_, ?_⟩
  · rw [get_greeks_append_two, hpv, hpgd]
    field_simp
    ring
  · rw [get_greeks_append_two, hps, hpgd, hpvd]
    ring
  · rw [get_greeks_append_one, hpg]
    field_simp
    ring
  · rw [get_greeks_append_two, hpg]
    field_simp
    ring

/-- Base instrument of the C2 test book: pure gamma exposure. -/
def c2Base : Instrument := constInst 0 0 1 0

/-- Gamma-hedge instrument of the C2 test book: unit gamma and unit vega. -/
def c2G : Instrument := constInst 0 0 1 1

/-- Vega-hedge instrument of the C2 test book: unit gamma and unit vega. -/
def c2V : Instrument := constInst 0 0 1 1

/-- Day-0 snapshot of the C2 test book. -/
def c2Row : Row := ⟨0, 1, 1, 0, 0⟩

/-- Engine over the C2 test book, both hedge instruments configured. -/
def c2Engine : Engine := mkEngine ⟨[(c2Base, 1)], [c2Row], some c2G, some c2V, 1⟩

lemma c2_pos_gamma : (engineInit c2Engine).pos_gamma_hedge = -1 := by
  norm_num [engineInit, c2Engine, mkEngine, initState, day0PosGamma, get_greeks,
    greekStep, c2Base, c2G, constInst, c2Row, defaultRow, eps]

lemma c2_pos_vega : (engineInit c2Engine).pos_vega_hedge = 1 := by
  norm_num [engineInit, c2Engine, mkEngine, initState, day0PosVega, day0PosGamma,
    get_greeks, greekStep, c2Base, c2G, c2V, constInst, c2Row, defaultRow, eps]

/-- C2 fails as stated: on this engine both hedge instruments clear the
degeneracy guard, yet the aggregate gamma of base + gamma hedge + vega
hedge at Day 0 is 1, far outside ε — the vega hedge's own gamma is never
re-neutralized. -/
theorem claim_C2_counterexample :
    eps < |c2G.gamma 1 0 0 1| ∧ eps < |c2V.vega 1 0 0 1|
    ∧ ¬ (|(get_greeks ([(c2Base, 1)] ++ [(c2G, (engineInit c2Engine).pos_gamma_hedge),
          (c2V, (engineInit c2Engine).pos_vega_hedge)]) 1 1 0 0).gamma| ≤ eps) := by
  refine ⟨by norm_num [c2G, constInst, eps], by norm_num [c2V, constInst, eps], ?_⟩
  rw [get_greeks_append_two, c2_pos_gamma, c2_pos_vega]
  norm_num [c2Base, c2G, c2V, constInst, get_greeks, greekStep, eps]

/-- Concrete instantiation of the amended C2 on the C2 test book. -/
theorem claim_C2_witness :
    (get_greeks (c2Engine.portfolio ++ [(c2G, (engineInit c2Engine).pos_gamma_hedge),
        (c2V, (engineInit c2Engine).pos_vega_hedge)]) c2Row.spot c2Row.vol c2Row.date
        c2Row.sofr).vega = 0
    ∧ (get_greeks (c2Engine.portfolio ++ [(c2G, (engineInit c2Engine).pos_gamma_hedge),
        (c2V, (engineInit c2Engine).pos_vega_hedge)]) c2Row.spot c2Row.vol c2Row.date
        c2Row.sofr).delta + (engineInit c2Engine).pos_stock = 0
    ∧ (get_greeks (c2Engine.portfolio ++ [(c2G, (engineInit c2Engine).pos_gamma_hedge)])
        c2Row.spot c2Row.vol c2Row.date c2Row.sofr).gamma = 0
    ∧ (get_greeks (c2Engine.portfolio ++ [(c2G, (engineInit c2Engine).pos_gamma_hedge),
        (c2V, (engineInit c2Engine).pos_vega_hedge)]) c2Row.spot c2Row.vol c2Row.date
        c2Row.sofr).gamma
        = (engineInit c2Engine).pos_vega_hedge * c2V.gamma c2Row.spot c2Row.date
            c2Row.sofr c2Row.vol :=
  claim_C2_day0_neutralization c2Engine c2G c2V c2Row rfl rfl rfl
    (by norm_num [c2G, constInst, c2Row, eps])
    (by norm_num [c2V, constInst, c2Row, eps])

lemma gammaStage_none (e : Engine) (S : ℚ) (date : Int) (sofr vol : ℚ) (g : Greeks)
    (s : SimState) (h : e.gamma_inst = none) :
    gammaStage e S date sofr vol g s = (g, s, 0) := by
  simp [gammaStage, h]

lemma vegaStage_none (e : Engine) (S : ℚ) (date : Int) (sofr vol : ℚ) (g : Greeks)
    (s : SimState) (h : e.vega_inst = none) :
    vegaStage e S date sofr vol g s = (g, s, 0) := by
  simp [vegaStage, h]

lemma vegaStage_pos_gamma (e : Engine) (S : ℚ) (date : Int) (sofr vol : ℚ) (g : Greeks)
    (s : SimState) :
    (vegaStage e S date sofr vol g s).2.1.pos_gamma_hedge = s.pos_gamma_hedge := by
  unfold vegaStage
  cases e.vega_inst with
  | none => rfl
  | some vi =>
    by_cases h : eps < |vi.vega S date sofr vol| <;> simp [h]

lemma gammaStage_pos_vega (e : Engine) (S : ℚ) (date : Int) (sofr vol : ℚ) (g : Greeks)
    (s : SimState) :
    (gammaStage e S date sofr vol g s).2.1.pos_vega_hedge = s.pos_vega_hedge := by
  unfold gammaStage
  cases e.gamma_inst with
  | none => rfl
  | some gi =>
    by_cases h : eps < |gi.gamma S date sofr vol| <;> simp [h]

lemma step_pos_gamma_none (e : Engine) (s : SimState) (row : Row) (n : Nat)
    (h : e.gamma_inst = none) :
    (step e s row n).1.pos_gamma_hedge = s.pos_gamma_hedge := by
  by_cases hc : n % e.rehedge_interval = 0
  · simp only [step, stepAfterFunding, hc, if_true]
    rw [gammaStage_none _ _ _ _ _ _ _ h]
    simp [deltaStage, vegaStage_pos_gamma]
  · simp [step, stepAfterFunding, hc]

lemma step_pos_vega_none (e : Engine) (s : SimState) (row : Row) (n : Nat)
    (h : e.vega_inst = none) :
    (step e s row n).1.pos_vega_hedge = s.pos_vega_hedge := by
  by_cases hc : n % e.rehedge_interval = 0
  · simp only [step, stepAfterFunding, hc, if_true]
    rw [vegaStage_none _ _ _ _ _ _ _ h]
    simp [deltaStage, gammaStage_pos_vega]
  · simp [step, stepAfterFunding, hc]

lemma runTrace_pos_gamma_none (e : Engine) (h : e.gamma_inst = none) :
    ∀ (rows : List Row) (s0 : SimState) (n0 : Nat) (t : Row × SimState × ResultRow),
      s0.pos_gamma_hedge = 0 → t ∈ runTrace e s0 n0 rows → t.2.1.pos_gamma_hedge = 0 := by
  intro rows
  induction rows with
  | nil =>
    intro s0 n0 t _ ht
    simp [runTrace] at ht
  | cons row rest ih =>
    intro s0 n0 t hs ht
    simp only [runTrace] at ht
    rcases List.mem_cons.mp ht with h1 | h1
    · subst h1
      rw [step_pos_gamma_none e s0 row n0 h]
      exact hs
    · exact ih _ _ _ (by rw [step_pos_gamma_none e s0 row n0 h]; exact hs) h1

lemma runTrace_pos_vega_none (e : Engine) (h : e.vega_inst = none) :
    ∀ (rows : List Row) (s0 : SimState) (n0 : Nat) (t : Row × SimState × ResultRow),
      s0.pos_vega_hedge = 0 → t ∈ runTrace e s0 n0 rows → t.2.1.pos_vega_hedge = 0 := by
  intro rows
  induction rows with
  | nil =>
    intro s0 n0 t _ ht
    simp [runTrace] at ht
  | cons row rest ih =>
    intro s0 n0 t hs ht
    simp only [runTrace] at ht
    rcases List.mem_cons.mp ht with h1 | h1
    · subst h1
      rw [step_pos_vega_none e s0 row n0 h]
      exact hs
    · exact ih _ _ _ (by rw [step_pos_vega_none e s0 row n0 h]; exact hs) h1

/-- C10: with no gamma instrument the gamma hedge position is 0 at Day 0
and after every step, and the gamma stage never trades, moves cash, or
charges a cost; symmetrically for the vega leg — a hedge position can be
nonzero only when its instrument is configured. -/
theorem claim_C10_unconfigured_hedges (e1 e2 : Engine) (s1 s2 : SimState) (n1 n2 : Nat)
    (rows1 rows2 : List Row) (t1 t2 : Row × SimState × ResultRow)
    (S1 S2 v1 v2 r1 r2 : ℚ) (d1 d2 : Int) (g1 g2 : Greeks) (u1 u2 : SimState)
    (hg : e1.gamma_inst = none) (hv : e2.vega_inst = none)
    (hs1 : s1.pos_gamma_hedge = 0) (hs2 : s2.pos_vega_hedge = 0)
    (ht1 : t1 ∈ runTrace e1 s1 n1 rows1) (ht2 : t2 ∈ runTrace e2 s2 n2 rows2) :
    (engineInit e1).pos_gamma_hedge = 0
    ∧ gammaStage e1 S1 d1 r1 v1 g1 u1 = (g1, u1, 0)
    ∧ t1.2.1.pos_gamma_hedge = 0
    ∧ (engineInit e2).pos_vega_hedge = 0
    ∧ vegaStage e2 S2 d2 r2 v2 g2 u2 = (g2, u2, 0)
    ∧ t2.2.1.pos_vega_hedge = 0 := by
  refine ⟨?_, gammaStage_none _ _ _ _ _ _ _ hg,
    runTrace_pos_gamma_none e1 hg rows1 s1 n1 t1 hs1 ht1, ?_,
    vegaStage_none _ _ _ _ _ _ _ hv,
    runTrace_pos_vega_none e2 hv rows2 s2 n2 t2 hs2 ht2⟩
  · simp [engineInit, initState, day0PosGamma, hg]
  · simp [engineInit, initState, day0PosVega, hv]

/-- Concrete instantiation of C10 on the trivial engine. -/
theorem claim_C10_witness :
    (engineInit w1Engine).pos_gamma_hedge = 0
    ∧ gammaStage w1Engine 1 0 0 1 ⟨0, 0, 0, 0⟩ ⟨0, 0, 0, 0⟩
        = (⟨0, 0, 0, 0⟩, ⟨0, 0, 0, 0⟩, 0)
    ∧ w1T.2.1.pos_gamma_hedge = 0
    ∧ (engineInit w1Engine).pos_vega_hedge = 0
    ∧ vegaStage w1Engine 1 0 0 1 ⟨0, 0, 0, 0⟩ ⟨0, 0, 0, 0⟩
        = (⟨0, 0, 0, 0⟩, ⟨0, 0, 0, 0⟩, 0)
    ∧ w1T.2.1.pos_vega_hedge = 0 :=
  claim_C10_unconfigured_hedges w1Engine w1Engine ⟨0, 0, 0, 0⟩ ⟨0, 0, 0, 0⟩ 0 0
    [w1Row] [w1Row] w1T w1T 1 1 1 1 0 0 0 0 ⟨0, 0, 0, 0⟩ ⟨0, 0, 0, 0⟩
    ⟨0, 0, 0, 0⟩ ⟨0, 0, 0, 0⟩ rfl rfl rfl rfl
    (by rw [show runTrace w1Engine ⟨0, 0, 0, 0⟩ 0 [w1Row] = [w1T] by
          norm_num [runTrace, step, stepAfterFunding, accrue, hedgeView, gammaStage,
            vegaStage, deltaStage, pvBase, pvHedges, get_greeks, greekStep, mkEngine,
            w1Engine, w1Row, w1T, Engine.spreadCost, get_spread_cost, defaultRow]]
        exact List.mem_singleton_self w1T)
    (by rw [show runTrace w1Engine ⟨0, 0, 0, 0⟩ 0 [w1Row] = [w1T] by
          norm_num [runTrace, step, stepAfterFunding, accrue, hedgeView, gammaStage,
            vegaStage, deltaStage, pvBase, pvHedges, get_greeks, greekStep, mkEngine,
            w1Engine, w1Row, w1T, Engine.spreadCost, get_spread_cost, defaultRow]]
        exact List.mem_singleton_self w1T)
